import Mathlib

/-!
Shallow embedding of the stacktrace-rule (enhancements) engine in
`src/sentry/grouping/enhancer/__init__.py`, together with models of the
pieces of the repository this module uses but whose sources are not
available (the rule/parser/matcher modules, the grouping components and
the small dict utilities); those models carry doc comments starting with
`Modelled from the spec:`.
-/

namespace Enhancer

/-- Python exceptions that the embedded code can raise.  `valueError`
covers both the explicit `raise ValueError("Unknown version")` in
`_from_config_structure` and the re-raise in `from_base64_string`;
`unboundLocalError` models referencing a local variable on a path where
it was never assigned. -/
inductive PyError
  | valueError
  | typeError
  | attributeError
  | assertionError
  | unboundLocalError
  | invalidEnhancerConfig
  deriving Repr, DecidableEq

/-- Modelled from the spec: an action of an enhancement rule (the rules
module is not under src/).  A classifier action sets `in_app` or
`category` on a frame; a contributes action sets `contributes` on a
frame or (via plus-group / minus-group) on the stacktrace. -/
inductive Action
  | setInApp (value : Bool)
  | setCategory (value : String)
  | setContributes (value : Bool)
  | setGroupContributes (value : Bool)
  deriving Repr, DecidableEq

/-- Modelled from the spec: whether an action is a classifier action
(sets `in_app` or `category`). -/
def Action.isClassifier : Action → Bool
  | .setInApp _ => true
  | .setCategory _ => true
  | .setContributes _ => false
  | .setGroupContributes _ => false

/-- Modelled from the spec: whether an action is a contributes action
(sets `contributes` on a frame or the stacktrace). -/
def Action.isContributes : Action → Bool
  | .setInApp _ => false
  | .setCategory _ => false
  | .setContributes _ => true
  | .setGroupContributes _ => true

/-- Modelled from the spec: one match condition, a
(field, pattern, negated) triple (the matchers module is not under
src/).  The concrete glob semantics are irrelevant to the claims. -/
structure Matcher where
  field : String
  pattern : String
  negated : Bool
  deriving Repr, DecidableEq

/-- Modelled from the spec: an enhancement rule — ordered matchers,
ordered actions, and the original source text kept for
round-tripping (the rules module is not under src/). -/
structure EnhancementRule where
  matchers : List Matcher
  actions : List Action
  text : String
  deriving Repr, DecidableEq

/-- Modelled from the spec: the derived flag telling whether a rule has
any classifier actions (`rule._has_classifier_actions`). -/
def EnhancementRule.hasClassifierActions (r : EnhancementRule) : Bool :=
  r.actions.any Action.isClassifier

/-- Modelled from the spec: the derived flag telling whether a rule has
any contributes actions (`rule._has_contributes_actions`). -/
def EnhancementRule.hasContributesActions (r : EnhancementRule) : Bool :=
  r.actions.any Action.isContributes

/-- Modelled from the spec: `rule.as_classifier_rule()` — a copy of the
rule keeping the same matchers but only its classifier actions. -/
def EnhancementRule.asClassifierRule (r : EnhancementRule) : EnhancementRule :=
  { r with actions := r.actions.filter Action.isClassifier }

/-- Modelled from the spec: `rule._as_contributes_rule()` — a copy of
the rule keeping the same matchers but only its contributes actions. -/
def EnhancementRule.asContributesRule (r : EnhancementRule) : EnhancementRule :=
  { r with actions := r.actions.filter Action.isContributes }

/-- The conceptual content of a `RustEnhancements` object: the list of
rules it was parsed from.  `RustEnhancements.empty()` is `[]` and
`extend_from` is list append. -/
abbrev RustEnhancements := List EnhancementRule

/-- Modelled from the spec: a rule's serialized config structure
(`EnhancementRule._to_config_structure` /
`EnhancementRule._from_config_structure`, rules module not under src/).
The spec states the encoding is round-trip exact for
matchers + actions + source text, so the structure is represented by
the rule itself. -/
abbrev RuleConfig := EnhancementRule

/-- Modelled from the spec: rule-level encoding, round-trip exact. -/
def ruleToConfigStructure (_version : Int) (r : EnhancementRule) : RuleConfig := r

/-- Modelled from the spec: rule-level decoding, round-trip exact. -/
def ruleFromConfigStructure (_version : Int) (c : RuleConfig) : EnhancementRule := c

/-- An entry of `Enhancements.bases`.  Normally a base id string; the
`ruleStructure` constructor records the type confusion that arises when
`_from_config_structure` unpacks a version-3 three-element structure as
`version, bases, rule_config_structures` — the "bases" slot then holds
rule config structures instead of strings. -/
inductive BaseRef
  | id (s : String)
  | ruleStructure (cfg : RuleConfig)
  deriving Repr, DecidableEq

/-- `VERSIONS = [3, 2]` from the source. -/
def VERSIONS : List Int := [3, 2]

/-- `LATEST_VERSION = VERSIONS[-1]`, i.e. 2. -/
def LATEST_VERSION : Int := 2

/-- The rule data held by an `Enhancements` object.  Version <= 2
objects carry `rules` plus the merged `rust_enhancements`; version 3
objects carry the split `classifier_rules` / `contributes_rules`
together with the two rust objects parsed from their joined texts. -/
inductive RuleData
  | legacyRules (rules : List EnhancementRule) (rust_enhancements : RustEnhancements)
  | splitRules (classifier_rules contributes_rules : List EnhancementRule)
      (rust_classifier_enhancements rust_contributes_enhancements : RustEnhancements)
  deriving Repr, DecidableEq

/-- The `Enhancements` object (fields set by `Enhancements.__init__`). -/
structure Enhancements where
  id : Option String
  version : Int
  bases : List BaseRef
  ruleData : RuleData
  deriving Repr, DecidableEq

/-- The process-wide base registry `ENHANCEMENT_BASES`, mapping a base
id to that base's `rust_enhancements` (all builtin bases are built by
`from_rules_text` at the default version, so they are version-2 objects
carrying a `rust_enhancements` attribute).  The registry contents are
loaded from data files not under src/, so it is a parameter. -/
abbrev Registry := String → Option RustEnhancements

/-- `merge_rust_enhancements`: concatenates the rust enhancements of
each base (in base-list order, silently skipping ids missing from the
registry) followed by the incoming rust enhancements.  Looking a
non-string (rule-structure) base up in the registry dict raises
`TypeError` (unhashable list key). -/
def merge_rust_enhancements (registry : Registry) (bases : List BaseRef)
    (rust_enhancements : RustEnhancements) : Except PyError RustEnhancements := do
  let merged ← bases.foldlM
    (fun (acc : RustEnhancements) (b : BaseRef) =>
      match b with
      | .id s =>
        match registry s with
        | some base => pure (acc ++ base)
        | none => pure acc
      | .ruleStructure _ => Except.error .typeError)
    ([] : RustEnhancements)
  pure (merged ++ rust_enhancements)

/-- Modelled from the spec: parsing the joined source text of a list of
rules with the external Rust parser (`parse_rust_enhancements` with a
`config_string` source) deterministically yields those rules again —
the spec makes parsing deterministic and each rule keeps its source
text for round-tripping. -/
def rustParseRulesText (rules : List EnhancementRule) : RustEnhancements := rules

/-- `version or LATEST_VERSION`: Python treats 0 as falsy. -/
def versionOrLatest : Option Int → Int
  | none => LATEST_VERSION
  | some v => if v = 0 then LATEST_VERSION else v

/-- `Enhancements.__init__`.  `rules` is either a plain rule list
(`Sum.inl`) or the `(classifier_rules, contributes_rules)` pair
(`Sum.inr`).  For version <= 2 the rules are stored as-is and the rust
enhancements are merged with the bases (a tuple argument trips the
`assert isinstance(rules, list)`); for version 3 a plain list is split
into classifier and contributes rules and the two rust objects are
parsed from the joined rule texts (the incoming `rust_enhancements`
argument is unused on that path). -/
def enhancementsInit (registry : Registry)
    (rules : List EnhancementRule ⊕ (List EnhancementRule × List EnhancementRule))
    (rust_enhancements : RustEnhancements)
    (version : Option Int) (bases : Option (List BaseRef)) (id : Option String) :
    Except PyError Enhancements :=
  let v := versionOrLatest version
  let bs := bases.getD []
  if v ≤ 2 then
    match rules with
    | .inl ruleList => do
      let merged ← merge_rust_enhancements registry bs rust_enhancements
      pure ⟨id, v, bs, .legacyRules ruleList merged⟩
    | .inr _ => Except.error .assertionError
  else
    let pair :=
      match rules with
      | .inl ruleList =>
        ((ruleList.filter EnhancementRule.hasClassifierActions).map
            EnhancementRule.asClassifierRule,
         (ruleList.filter EnhancementRule.hasContributesActions).map
            EnhancementRule.asContributesRule)
      | .inr p => p
    pure ⟨id, v, bs, .splitRules pair.1 pair.2
      (rustParseRulesText pair.1) (rustParseRulesText pair.2)⟩

/-- `Enhancements.from_rules_text`.  The text parser
(`parse_enhancements`, not under src/) is modelled by taking the parsed
rule list directly; per the spec parsing is deterministic and pure.
The locally computed split rule lists and their rust parses are
discarded by the source (only `rules` is passed on), so they are not
modelled. -/
def from_rules_text (registry : Registry) (rules : List EnhancementRule)
    (bases : Option (List BaseRef)) (id : Option String) (version : Option Int) :
    Except PyError Enhancements :=
  enhancementsInit registry (.inl rules) (rustParseRulesText rules) version bases id

/-- The msgpack-decoded config structure, always a three-element array.
For version <= 2 it is `[version, bases, rule structures]`; for
version 3 the encoder emits the `StructuredEnhancementsConfig`
namedtuple `(version, classifier structures, contributes structures)`,
which msgpack also flattens to a three-element array — so the second
slot holds base-id strings for the legacy layout and rule structures
for the version-3 layout (`BaseRef` captures both). -/
structure ConfigStructure where
  version : Int
  second : List BaseRef
  third : List RuleConfig
  deriving Repr, DecidableEq

/-- `Enhancements._to_config_structure`.  The source branches on
`self.version <= 2`; `__init__` couples the version to the rule-data
shape (version <= 2 objects carry `rules`, version 3 objects carry the
split lists), so the branch is taken on the rule data here. -/
def Enhancements.toConfigStructure (e : Enhancements) : ConfigStructure :=
  match e.ruleData with
  | .legacyRules rules _ =>
    ⟨e.version, e.bases, rules.map (ruleToConfigStructure e.version)⟩
  | .splitRules classifier_rules contributes_rules _ _ =>
    ⟨e.version,
     (classifier_rules.map fun r => .ruleStructure (ruleToConfigStructure e.version r)),
     contributes_rules.map (ruleToConfigStructure e.version)⟩

/-- `Enhancements.base64_string` msgpack-encodes the config structure,
zstd-compresses it and urlsafe-base64-encodes the result.  Those three
steps are external libraries (msgpack, zstandard, base64) and exact
inverses of the decoding steps in `from_base64_string`, so the opaque
payload is represented by the config structure itself. -/
def Enhancements.base64_string (e : Enhancements) : ConfigStructure :=
  e.toConfigStructure

/-- `Enhancements._from_config_structure`: unpack
`version, bases, rule_config_structures = data`, reject a version
outside `VERSIONS` with `ValueError`, then construct via `__init__`
with the decoded rules as a plain list. -/
def from_config_structure (registry : Registry) (data : ConfigStructure)
    (rust_enhancements : RustEnhancements) : Except PyError Enhancements :=
  if data.version ∈ VERSIONS then
    enhancementsInit registry
      (.inl (data.third.map (ruleFromConfigStructure data.version)))
      rust_enhancements (some data.version) (some data.second) none
  else Except.error .valueError

/-- Modelled from the spec: `RustEnhancements.from_config_structure`
(external Rust library) parses the same rule structures the Python
decoder reads, yielding their rules. -/
def rustFromConfigStructure (data : ConfigStructure) : RustEnhancements :=
  data.third.map (ruleFromConfigStructure data.version)

/-- `parse_rust_enhancements` with a `config_structure` source.  Before
returning the rust object it evaluates
`Enhancements._from_config_structure(msgpack.loads(input), ...)` twice
(for the dead `.rules` / `.bases` reads); any error those raise
propagates, and the `.rules` attribute read raises `AttributeError` on
a version-3 (split) object.  Only `RuntimeError` from the rust parser
is converted to `InvalidEnhancerConfig`, and the modelled rust parse is
total, so that conversion never fires here. -/
def parse_rust_enhancements_structure (registry : Registry)
    (data : ConfigStructure) : Except PyError RustEnhancements := do
  let e1 ← from_config_structure registry data (rustFromConfigStructure data)
  match e1.ruleData with
  | .splitRules _ _ _ _ => Except.error .attributeError
  | .legacyRules _ _ => do
    let _ ← from_config_structure registry data (rustFromConfigStructure data)
    pure (rustFromConfigStructure data)

/-- Which exceptions the `except (LookupError, AttributeError,
TypeError, ValueError)` clause of `from_base64_string` catches.
`UnboundLocalError` (a `NameError`), `AssertionError` and
`InvalidEnhancerConfig` (a plain `Exception`) are not caught. -/
def PyError.caughtByDecodeClause : PyError → Bool
  | .valueError => true
  | .typeError => true
  | .attributeError => true
  | .assertionError => false
  | .unboundLocalError => false
  | .invalidEnhancerConfig => false

/-- `Enhancements.from_base64_string`.  The base64 decode, zlib/zstd
decompression (auto-detected from the zstd magic bytes) and msgpack
decode are exact external inverses of the encoder, so the input is the
decoded config structure.  The body reads `version = config_structure[0]`
and assigns the local `rust_enhancements` only when `version <= 2`; on
any other path the final `cls._from_config_structure(config_structure,
rust_enhancements)` call references the never-assigned local and raises
`UnboundLocalError`.  Errors caught by the except clause are re-raised
as `ValueError("invalid stacktrace rule config: ...")`. -/
def from_base64_string (registry : Registry) (data : ConfigStructure) :
    Except PyError Enhancements :=
  let body : Except PyError Enhancements :=
    if data.version ≤ 2 then do
      let rust_enhancements ← parse_rust_enhancements_structure registry data
      from_config_structure registry data rust_enhancements
    else Except.error .unboundLocalError
  match body with
  | .ok e => .ok e
  | .error err =>
    if err.caughtByDecodeClause then Except.error .valueError else Except.error err

/-- Modelled from the spec: the `data` sub-dict of a frame.  Entries
the engine can write (`category`, `client_in_app`, `orig_in_app`) are
explicit (an outer `none` means the key is absent, so `client_in_app`
and `orig_in_app` are doubly optional because a present key may hold a
null value); all other entries are kept opaque in `other`. -/
structure FrameData where
  category : Option String
  client_in_app : Option (Option Bool)
  orig_in_app : Option (Option Int)
  other : List (String × String)
  deriving Repr, DecidableEq

/-- Modelled from the spec: the caller's mutable frame dict.  Only
`in_app` and the `data` entries above are ever written by the engine;
every other key is kept opaque in `other`.  An absent `data` dict and
an empty one behave identically under the path-setting helpers, so
`data` is always present here. -/
structure Frame where
  in_app : Option Bool
  data : FrameData
  other : List (String × String)
  deriving Repr, DecidableEq

/-- Modelled from the spec: `set_in_app` from
`sentry.stacktraces.functions` (not under src/), per the source comment
at its call site: if the frame's `in_app` already equals the new value
nothing changes; otherwise the original value (in integer form, null
when it was null) is recorded under `data.orig_in_app` and `in_app` is
overwritten. -/
def set_in_app (frame : Frame) (value : Bool) : Frame :=
  if frame.in_app = some value then frame
  else
    { frame with
      in_app := some value,
      data := { frame.data with
        orig_in_app := some (frame.in_app.map fun b => if b then 1 else 0) } }

/-- The per-frame body of
`Enhancements.apply_category_and_updated_in_app_to_frames`: record the
incoming `in_app` under `data.client_in_app` if that key is absent
(`setdefault_path`), apply a non-null `in_app` result via `set_in_app`,
and store a non-null `category` result under `data.category`
(`set_path`).  The `(category, in_app)` pair is this frame's result
from the rust engine's `apply_modifications_to_frames` (external), so
it is a parameter. -/
def applyCategoryAndInAppToFrame (frame : Frame)
    (result : Option String × Option Bool) : Frame :=
  let f1 :=
    match frame.data.client_in_app with
    | some _ => frame
    | none =>
      { frame with data := { frame.data with client_in_app := some frame.in_app } }
  let f2 :=
    match result.2 with
    | some v => set_in_app f1 v
    | none => f1
  match result.1 with
  | some c => { f2 with data := { f2.data with category := some c } }
  | none => f2

/-- `Enhancements.apply_category_and_updated_in_app_to_frames`: zip the
frames with the rust results and update each frame in place. -/
def apply_category_and_updated_in_app_to_frames (frames : List Frame)
    (results : List (Option String × Option Bool)) : List Frame :=
  (frames.zip results).map fun p => applyCategoryAndInAppToFrame p.1 p.2

/-- `Enhancements.get_category_and_in_app_for_frame`: builds a match
frame, reads `self.rust_enhancements` (an `AttributeError` on a
version-3 object, which only has the split rust attributes), computes
`category, in_app` from the rust engine result — and then falls off the
end of the function, returning `None` despite its
`tuple[str | None, bool | None]` return annotation.  The rust engine's
per-frame result is external, so it is a parameter. -/
def get_category_and_in_app_for_frame (e : Enhancements)
    (rustResult : Option String × Option Bool) :
    Except PyError (Option (Option String × Option Bool)) :=
  match e.ruleData with
  | .legacyRules _ _ =>
    let _category_in_app := rustResult
    pure none
  | .splitRules _ _ _ _ => Except.error .attributeError

/-- Modelled from the spec: a frame grouping component
(`sentry.grouping.component`, not under src/) — `contributes`, a
`hint`, and the frame's `in_app` flag; `update` overwrites the given
fields. -/
structure FrameGroupingComponent where
  in_app : Bool
  contributes : Bool
  hint : Option String
  deriving Repr, DecidableEq

/-- A rust `Component` after
`rust_enhancements.assemble_stacktrace_component` has modified it: the
engine's `contributes` verdict and hint for one frame. -/
structure RustComponent where
  contributes : Bool
  hint : Option String
  deriving Repr, DecidableEq

/-- The stacktrace-level part of the rust engine's result
(`rust_results.contributes` / `rust_results.hint`). -/
structure RustAssembleResult where
  contributes : Bool
  hint : Option String
  deriving Repr, DecidableEq

/-- The four-way frame tally (`frame_counts`), keyed by
in-app/system x contributing/non-contributing. -/
structure FrameCounts where
  in_app_contributing : Nat
  in_app_non_contributing : Nat
  system_contributing : Nat
  system_non_contributing : Nat
  deriving Repr, DecidableEq

/-- Bump the tally entry selected by the updated component's `in_app`
and `contributes` values. -/
def FrameCounts.add (c : FrameCounts) (fc : FrameGroupingComponent) : FrameCounts :=
  if fc.in_app then
    if fc.contributes then
      { c with in_app_contributing := c.in_app_contributing + 1 }
    else
      { c with in_app_non_contributing := c.in_app_non_contributing + 1 }
  else
    if fc.contributes then
      { c with system_contributing := c.system_contributing + 1 }
    else
      { c with system_non_contributing := c.system_non_contributing + 1 }

/-- Sum of the four tally entries. -/
def FrameCounts.total (c : FrameCounts) : Nat :=
  c.in_app_contributing + c.in_app_non_contributing +
    c.system_contributing + c.system_non_contributing

/-- Modelled from the spec: the stacktrace grouping component
(`sentry.grouping.component`, not under src/) as constructed at the end
of `assemble_stacktrace_component`. -/
structure StacktraceGroupingComponent where
  values : List FrameGroupingComponent
  hint : Option String
  contributes : Bool
  frame_counts : FrameCounts
  deriving Repr, DecidableEq

/-- Python's `str.startswith`, computed on the character list (the
builtin `String.startsWith` is opaque to the kernel). -/
def pyStartsWith (s p : String) : Bool :=
  p.data.isPrefixOf s.data

/-- `self.bases and self.bases[0].startswith("legacy")`: false for an
empty bases list (short-circuit), otherwise a prefix test on the first
base id; `startswith` on a type-confused rule-structure entry raises
`AttributeError`. -/
def basesStartWithLegacy : List BaseRef → Except PyError Bool
  | [] => pure false
  | .id s :: _ => pure (pyStartsWith s "legacy")
  | .ruleStructure _ :: _ => Except.error .attributeError

/-- Python truthiness for an optional hint string: `None` and the empty
string are falsy. -/
def hintTruthy : Option String → Bool
  | none => false
  | some h => h ≠ ""

/-- The per-frame update in the loop of
`assemble_stacktrace_component`.  In the app variant (without a legacy
base) a non-in-app frame is forced to `contributes := false`, keeping
the rust hint only when it is truthy and starts with
"marked out of app"; in the system variant the rust `contributes` is
taken and a truthy rust hint is kept unless it starts with
"marked in-app" or "marked out of app"; otherwise both rust values are
taken as-is. -/
def updatedFrameComponent (legacy : Bool) (variant_name : String)
    (py : FrameGroupingComponent) (rust : RustComponent) : FrameGroupingComponent :=
  if ¬legacy ∧ variant_name = "app" ∧ ¬py.in_app then
    { py with
      contributes := false,
      hint :=
        if hintTruthy rust.hint ∧ pyStartsWith (rust.hint.getD "") "marked out of app"
        then rust.hint else py.hint }
  else if variant_name = "system" then
    { py with
      contributes := rust.contributes,
      hint :=
        if hintTruthy rust.hint ∧
            ¬pyStartsWith (rust.hint.getD "") "marked in-app" ∧
            ¬pyStartsWith (rust.hint.getD "") "marked out of app"
        then rust.hint else py.hint }
  else
    { py with contributes := rust.contributes, hint := rust.hint }

/-- `Enhancements.assemble_stacktrace_component`.  The rust engine call
is external; its outputs — the modified per-frame components and the
stacktrace-level result — are parameters (`rustComponents` has the same
length as `frame_components` in the source, since rust modifies the
per-component list built from them; the zip truncates otherwise, just
as Python's `zip` would).  The updated components are tallied, and in
the app variant (without a legacy base) a zero in-app-contributing
tally forces the stacktrace's `contributes` to false with a null hint;
otherwise the rust stacktrace verdict and hint are used. -/
def assemble_stacktrace_component (e : Enhancements) (variant_name : String)
    (frame_components : List FrameGroupingComponent)
    (rustComponents : List RustComponent) (rust_results : RustAssembleResult) :
    Except PyError StacktraceGroupingComponent := do
  let legacy ← basesStartWithLegacy e.bases
  let updated := (frame_components.zip rustComponents).map
    fun p => updatedFrameComponent legacy variant_name p.1 p.2
  let frame_counts := updated.foldl FrameCounts.add ⟨0, 0, 0, 0⟩
  let stacktrace :=
    if ¬legacy ∧ variant_name = "app" ∧ frame_counts.in_app_contributing = 0 then
      (false, (none : Option String))
    else
      (rust_results.contributes, rust_results.hint)
  pure ⟨updated, stacktrace.2, stacktrace.1, frame_counts⟩

/-! Concrete fixtures used by the theorems below. -/

/-- A registry in which no base id is registered. -/
def reg0 : Registry := fun _ => none

/-- A concrete rule carrying both a classifier and a contributes
action. -/
def ruleMixed : EnhancementRule :=
  ⟨[⟨"function", "panic_handler", false⟩],
   [.setInApp false, .setContributes false],
   "stack.function:panic_handler -app -group"⟩

/-- A concrete contributes-only rule, playing the role of a builtin
base's rule. -/
def ruleBase : EnhancementRule :=
  ⟨[⟨"module", "std.*", false⟩], [.setContributes false], "module:std.* -group"⟩

/-- A registry with exactly one registered base. -/
def reg1 : Registry :=
  fun s => if s = "newstyle:2023-01-11" then some [ruleBase] else none

/-- The version-3 `Enhancements` object built from `[ruleMixed]`. -/
def e3split : Enhancements :=
  ⟨none, 3, [],
   .splitRules
     [⟨ruleMixed.matchers, [.setInApp false], ruleMixed.text⟩]
     [⟨ruleMixed.matchers, [.setContributes false], ruleMixed.text⟩]
     [⟨ruleMixed.matchers, [.setInApp false], ruleMixed.text⟩]
     [⟨ruleMixed.matchers, [.setContributes false], ruleMixed.text⟩]⟩

/-- A version-2 `Enhancements` object with no bases. -/
def e2plain : Enhancements := ⟨none, 2, [], .legacyRules [ruleMixed] [ruleMixed]⟩

/-- A version-2 `Enhancements` object with no bases and no rules. -/
def e2empty : Enhancements := ⟨none, 2, [], .legacyRules [] []⟩

/-- A version-2 `Enhancements` object whose first base is the legacy
base id (`legacy:2019-03-12` is the legacy builtin config). -/
def e2legacy : Enhancements :=
  ⟨none, 2, [.id "legacy:2019-03-12"], .legacyRules [] []⟩

/-! Claim theorems. -/

/-- Claim C1 (code bug).  The claim says decoding `rs.base64_string`
succeeds for every recognized version and round-trips the rule set.
The code violates this for version 3: `from_base64_string` assigns its
local `rust_enhancements` only when `version <= 2`, so decoding the
payload produced by a version-3 rule set raises `UnboundLocalError`
(which the `except` clause does not catch) instead of returning
anything.  The same decode succeeds and round-trips for the version-2
object, isolating the failure to the version-3 path. -/
theorem c1_roundtrip_version3_crashes :
    enhancementsInit reg0 (.inl [ruleMixed]) [] (some 3) (some []) none = .ok e3split ∧
    from_base64_string reg0 e3split.base64_string = .error .unboundLocalError ∧
    from_base64_string reg0 e2plain.base64_string = .ok e2plain :=
  ⟨rfl, rfl, rfl⟩

/-- Claim C3, counterexample.  Constructing a rule set whose bases
list contains the unregistered id "does-not-exist" does not fail with
any error: `merge_rust_enhancements` silently skips ids missing from
`ENHANCEMENT_BASES` (`if base:`), so construction succeeds and the
resulting rule set simply omits that base's rules — exactly what the
claim says must not happen. -/
theorem c3_counterexample :
    enhancementsInit reg1 (.inl [ruleMixed]) (rustParseRulesText [ruleMixed]) none
        (some [.id "does-not-exist"]) none =
      .ok ⟨none, 2, [.id "does-not-exist"], .legacyRules [ruleMixed] [ruleMixed]⟩ :=
  rfl

/-- The fold inside `merge_rust_enhancements` over string base ids
never fails and concatenates exactly the registered bases' rules in
base-list order. -/
theorem merge_id_bases (registry : Registry) (ids : List String)
    (rust : RustEnhancements) :
    merge_rust_enhancements registry (ids.map .id) rust =
      .ok ((ids.filterMap registry).flatten ++ rust) := by
  unfold merge_rust_enhancements
  have aux : ∀ (l : List String) (acc : RustEnhancements),
      List.foldlM
        (fun (acc : RustEnhancements) (b : BaseRef) =>
          match b with
          | .id s =>
            match registry s with
            | some base => pure (acc ++ base)
            | none => pure acc
          | .ruleStructure _ => Except.error .typeError)
        acc (l.map .id) =
        (Except.ok (acc ++ (l.filterMap registry).flatten) :
          Except PyError RustEnhancements) := by
    intro l
    induction l with
    | nil => intro acc; simp [pure, Except.pure]
    | cons s tail ih =>
      intro acc
      simp only [List.map_cons, List.foldlM_cons, List.filterMap_cons]
      cases h : registry s with
      | none => simp [ih]
      | some base => simp [ih, List.append_assoc]
  rw [aux]
  rfl

/-- Claim C3, amended.  Constructing a rule set whose bases list
contains identifiers not present in the base registry does not raise
`ConfigurationError` (or anything else): unknown ids are silently
skipped, and the merged rust enhancements concatenate only the
registered bases' rules (in base-list order) followed by the rule
set's own rules. -/
theorem c3_unknown_bases_skipped (registry : Registry) (ids : List String)
    (rules : List EnhancementRule) (rust : RustEnhancements) (id : Option String) :
    enhancementsInit registry (.inl rules) rust none (some (ids.map .id)) id =
      .ok ⟨id, 2, ids.map .id,
        .legacyRules rules ((ids.filterMap registry).flatten ++ rust)⟩ := by
  unfold enhancementsInit
  simp only [versionOrLatest, Option.getD]
  rw [if_pos (by decide : LATEST_VERSION ≤ 2)]
  rw [merge_id_bases]
  rfl

/-- Claim C5 (code bug).  The claim says any payload whose version tag
is outside `VERSIONS = [3, 2]` fails with `ValueError`.  The code does
always fail (no rule set is ever returned), but for a version above 2
(for example 4) the failure is an `UnboundLocalError` — the local
`rust_enhancements` is only assigned when `version <= 2`, and
`UnboundLocalError` is not in the decoder's `except` clause — rather
than the `ValueError` the claim requires.  Unrecognized versions at or
below 2 (for example 1, or a negative version) do fail with
`ValueError` via the version gate in `_from_config_structure`. -/
theorem c5_version_gate_bug :
    from_base64_string reg0 ⟨4, [], []⟩ = .error .unboundLocalError ∧
    (Except.error .unboundLocalError : Except PyError Enhancements) ≠
      .error .valueError ∧
    from_base64_string reg0 ⟨1, [], []⟩ = .error .valueError ∧
    from_base64_string reg0 ⟨-1, [], []⟩ = .error .valueError :=
  ⟨rfl, by intro h; exact absurd (Except.error.inj h) (by decide), rfl, rfl⟩

/-- Claim C6 (code bug).  The claim says
`get_category_and_in_app_for_frame` returns the `(category, in_app)`
pair produced by the classifier rules.  The function computes that pair
but has no `return` statement, so it always returns `None`, in
contradiction with its own `-> tuple[str | None, bool | None]`
annotation.  Here the classifier result for the frame is
`("framework", False)` and the function still yields `None`. -/
theorem c6_missing_return :
    enhancementsInit reg0 (.inl []) [] none none none = .ok e2empty ∧
    get_category_and_in_app_for_frame e2empty (some "framework", some false) =
      .ok none ∧
    (Except.ok none : Except PyError (Option (Option String × Option Bool))) ≠
      .ok (some (some "framework", some false)) :=
  ⟨rfl, rfl, by intro h; exact absurd (Except.ok.inj h) (by decide)⟩

/-- Claim C7 (confirmed).  Version-3 construction from a plain rule
list produces `classifier_rules` holding exactly the input rules that
have classifier actions — in input order, each stripped to its
classifier actions — and `contributes_rules` holding exactly the input
rules that have contributes actions, stripped to those; a rule with
both kinds of actions thus yields one rule in each list, the two
sharing its matchers (and source text) while splitting its actions
into the two complementary families. -/
theorem c7_rule_split (registry : Registry) (rust : RustEnhancements)
    (bs : Option (List BaseRef)) (id : Option String)
    (rules : List EnhancementRule) :
    (enhancementsInit registry (.inl rules) rust (some 3) bs id =
      .ok ⟨id, 3, bs.getD [],
        .splitRules
          ((rules.filter EnhancementRule.hasClassifierActions).map
            EnhancementRule.asClassifierRule)
          ((rules.filter EnhancementRule.hasContributesActions).map
            EnhancementRule.asContributesRule)
          (rustParseRulesText ((rules.filter EnhancementRule.hasClassifierActions).map
            EnhancementRule.asClassifierRule))
          (rustParseRulesText ((rules.filter EnhancementRule.hasContributesActions).map
            EnhancementRule.asContributesRule))⟩) ∧
    (∀ r : EnhancementRule,
      r.asClassifierRule.matchers = r.matchers ∧
      r.asClassifierRule.actions = r.actions.filter Action.isClassifier ∧
      r.asClassifierRule.text = r.text) ∧
    (∀ r : EnhancementRule,
      r.asContributesRule.matchers = r.matchers ∧
      r.asContributesRule.actions = r.actions.filter Action.isContributes ∧
      r.asContributesRule.text = r.text) ∧
    (∀ a : Action, a.isContributes = !a.isClassifier) := by
  refine ⟨rfl, fun r => ⟨rfl, rfl, rfl⟩, fun r => ⟨rfl, rfl, rfl⟩, fun a => ?_⟩
  cases a <;> rfl

/-- Claim C9 (confirmed).  Applying a per-frame rule result to a frame:
a null `in_app` result leaves the frame's `in_app` unchanged and a null
`category` result leaves the stored category unchanged; an applied
`in_app` change records the previous raw value (in integer form) under
`data.orig_in_app` before overwriting (and is a no-op when the value
already matches); an applied category is recorded directly under
`data.category`; the incoming `in_app` is recorded once under
`data.client_in_app` (kept if already present); and no frame fields
other than `in_app` and those three data entries are modified. -/
theorem c9_apply_frame_effects (frame : Frame) (result : Option String × Option Bool) :
    (result.2 = none → (applyCategoryAndInAppToFrame frame result).in_app = frame.in_app) ∧
    (result.1 = none →
      (applyCategoryAndInAppToFrame frame result).data.category = frame.data.category) ∧
    (∀ v, result.2 = some v → frame.in_app ≠ some v →
      (applyCategoryAndInAppToFrame frame result).in_app = some v ∧
      (applyCategoryAndInAppToFrame frame result).data.orig_in_app =
        some (frame.in_app.map fun b => if b then 1 else 0)) ∧
    (∀ v, result.2 = some v → frame.in_app = some v →
      (applyCategoryAndInAppToFrame frame result).in_app = frame.in_app ∧
      (applyCategoryAndInAppToFrame frame result).data.orig_in_app =
        frame.data.orig_in_app) ∧
    (∀ c, result.1 = some c →
      (applyCategoryAndInAppToFrame frame result).data.category = some c) ∧
    (applyCategoryAndInAppToFrame frame result).data.client_in_app =
      some (frame.data.client_in_app.getD frame.in_app) ∧
    (applyCategoryAndInAppToFrame frame result).other = frame.other ∧
    (applyCategoryAndInAppToFrame frame result).data.other = frame.data.other := by
  obtain ⟨cat, ia⟩ := result
  unfold applyCategoryAndInAppToFrame set_in_app
  cases hc : frame.data.client_in_app <;> cases ia <;> cases cat <;>
    simp_all <;> split_ifs <;> simp_all

/-- Witness for C9 at a concrete frame: the rule result
`("db", True)` sets `in_app` and records the category. -/
def frame9 : Frame :=
  ⟨some false, ⟨none, none, none, [("symbol", "0x1234")]⟩, [("function", "render")]⟩

/-- Concrete instance of `c9_apply_frame_effects`. -/
theorem c9_witness :
    (applyCategoryAndInAppToFrame frame9 (some "db", some true)).in_app = some true ∧
    (applyCategoryAndInAppToFrame frame9 (some "db", some true)).data.category = some "db" := by
  have h := c9_apply_frame_effects frame9 (some "db", some true)
  exact ⟨(h.2.2.1 true rfl (by decide)).1, h.2.2.2.2.1 "db" rfl⟩

/-- The tally fold adds exactly one to the total per component. -/
theorem counts_total_aux (l : List FrameGroupingComponent) :
    ∀ init : FrameCounts, (l.foldl FrameCounts.add init).total = init.total + l.length := by
  induction l with
  | nil => intro init; simp
  | cons x xs ih =>
    intro init
    rw [List.foldl_cons, ih]
    have h : (init.add x).total = init.total + 1 := by
      unfold FrameCounts.add FrameCounts.total
      split_ifs <;> simp <;> omega
    rw [h]
    simp [List.length_cons]
    omega

/-- Each tally key counts exactly the components whose (in_app,
contributes) pair selects it. -/
theorem counts_key_aux (l : List FrameGroupingComponent) :
    ∀ init : FrameCounts,
      (l.foldl FrameCounts.add init).in_app_contributing =
        init.in_app_contributing + (l.filter fun c => c.in_app && c.contributes).length ∧
      (l.foldl FrameCounts.add init).in_app_non_contributing =
        init.in_app_non_contributing + (l.filter fun c => c.in_app && !c.contributes).length ∧
      (l.foldl FrameCounts.add init).system_contributing =
        init.system_contributing + (l.filter fun c => !c.in_app && c.contributes).length ∧
      (l.foldl FrameCounts.add init).system_non_contributing =
        init.system_non_contributing + (l.filter fun c => !c.in_app && !c.contributes).length := by
  induction l with
  | nil => intro init; simp
  | cons x xs ih =>
    intro init
    rw [List.foldl_cons]
    obtain ⟨h1, h2, h3, h4⟩ := ih (init.add x)
    rw [List.filter_cons, List.filter_cons, List.filter_cons, List.filter_cons]
    unfold FrameCounts.add at *
    cases ha : x.in_app <;> cases hb : x.contributes <;>
      simp_all <;> omega

/-- Claim C10 (confirmed).  In `assemble_stacktrace_component`, every
frame component is tallied in exactly one of the four `frame_counts`
keys, selected by its post-override `in_app` and `contributes` values,
so the four counts always sum to the number of frame components passed
in (given the rust engine returned one component per input, as it
always does). -/
theorem c10_frame_counts (e : Enhancements) (variant : String)
    (fcs : List FrameGroupingComponent) (rcs : List RustComponent)
    (rres : RustAssembleResult) (st : StacktraceGroupingComponent)
    (hlen : rcs.length = fcs.length)
    (hok : assemble_stacktrace_component e variant fcs rcs rres = .ok st) :
    st.frame_counts.total = fcs.length ∧
    st.frame_counts.in_app_contributing =
      (st.values.filter fun c => c.in_app && c.contributes).length ∧
    st.frame_counts.in_app_non_contributing =
      (st.values.filter fun c => c.in_app && !c.contributes).length ∧
    st.frame_counts.system_contributing =
      (st.values.filter fun c => !c.in_app && c.contributes).length ∧
    st.frame_counts.system_non_contributing =
      (st.values.filter fun c => !c.in_app && !c.contributes).length := by
  unfold assemble_stacktrace_component at hok
  cases hleg : basesStartWithLegacy e.bases with
  | error err => rw [hleg] at hok; exact absurd hok (by simp [bind, Except.bind])
  | ok legacy =>
    rw [hleg] at hok
    simp only [bind, Except.bind, pure, Except.pure, Except.ok.injEq] at hok
    subst hok
    have hkey := counts_key_aux
      ((fcs.zip rcs).map fun p => updatedFrameComponent legacy variant p.1 p.2)
      ⟨0, 0, 0, 0⟩
    refine ⟨?_, ?_, ?_, ?_, ?_⟩
    · have h := counts_total_aux
        ((fcs.zip rcs).map fun p => updatedFrameComponent legacy variant p.1 p.2)
        ⟨0, 0, 0, 0⟩
      simpa [FrameCounts.total, List.length_map, List.length_zip, hlen] using h
    · simpa using hkey.1
    · simpa using hkey.2.1
    · simpa using hkey.2.2.1
    · simpa using hkey.2.2.2

/-- Concrete instance of `c10_frame_counts`: two frames, one in-app
contributing and one suppressed system frame, tally total 2. -/
def c10wSt : StacktraceGroupingComponent :=
  ⟨[⟨true, true, none⟩, ⟨false, false, none⟩], none, true, ⟨1, 0, 0, 1⟩⟩

/-- Witness for C10. -/
theorem c10_witness : c10wSt.frame_counts.total = 2 :=
  (c10_frame_counts e2empty "app" [⟨true, true, none⟩, ⟨false, true, none⟩]
    [⟨true, none⟩, ⟨true, none⟩] ⟨true, none⟩ c10wSt rfl rfl).1

/-- Claim C2, counterexample.  With a rule set whose first base is the
legacy base id, the app-variant suppression branch is skipped entirely:
a frame with `in_app = false` whose engine verdict is
`contributes = true` keeps `contributes = true` (and the engine hint),
falsifying "every frame component whose in_app is not true ends with
contributes=false". -/
theorem c2_counterexample :
    assemble_stacktrace_component e2legacy "app"
        [⟨false, false, none⟩] [⟨true, some "kept grouping hint"⟩] ⟨true, none⟩ =
      .ok ⟨[⟨false, true, some "kept grouping hint"⟩], none, true, ⟨0, 0, 1, 0⟩⟩ := by
  unfold assemble_stacktrace_component basesStartWithLegacy e2legacy
  simp only [bind, Except.bind]
  rfl

/-- Claim C2, amended (proved).  In `assemble_stacktrace_component`
with variant "app", provided the rule set's first base is not a legacy
base, every frame component whose `in_app` is not true ends with
`contributes = false` regardless of the engine verdict; its hint is
taken from the engine only when that hint is non-empty and starts with
"marked out of app", and otherwise the frame's pre-existing hint is
kept. -/
theorem c2_app_in_app_suppression (e : Enhancements)
    (fcs : List FrameGroupingComponent) (rcs : List RustComponent)
    (rres : RustAssembleResult) (st : StacktraceGroupingComponent) (i : Nat)
    (py : FrameGroupingComponent) (rust : RustComponent)
    (hleg : basesStartWithLegacy e.bases = .ok false)
    (hok : assemble_stacktrace_component e "app" fcs rcs rres = .ok st)
    (hpy : fcs[i]? = some py) (hrust : rcs[i]? = some rust)
    (hin : py.in_app = false) :
    st.values[i]? = some { py with
      contributes := false,
      hint := if hintTruthy rust.hint ∧ pyStartsWith (rust.hint.getD "") "marked out of app"
              then rust.hint else py.hint } := by
  unfold assemble_stacktrace_component at hok
  rw [hleg] at hok
  simp only [bind, Except.bind, pure, Except.pure, Except.ok.injEq] at hok
  subst hok
  have hzip : (fcs.zip rcs)[i]? = some (py, rust) := by
    rw [List.getElem?_zip_eq_some]; exact ⟨hpy, hrust⟩
  simp only [List.getElem?_map, hzip, Option.map_some']
  unfold updatedFrameComponent
  have hcond : ¬false = true ∧ "app" = "app" ∧ ¬py.in_app = true :=
    ⟨by simp, rfl, by simp [hin]⟩
  rw [if_pos hcond]

/-- Witness rule-set outcome for `c2_app_in_app_suppression`. -/
def c2wSt : StacktraceGroupingComponent :=
  ⟨[⟨false, false, some "marked out of app by stack rule"⟩], none, false, ⟨0, 0, 0, 1⟩⟩

/-- Witness for the amended C2: a non-in-app frame whose engine verdict
was `contributes = true` ends up non-contributing, keeping the engine's
"marked out of app" hint. -/
theorem c2_witness :
    c2wSt.values[0]? = some ⟨false, false, some "marked out of app by stack rule"⟩ := by
  exact c2_app_in_app_suppression e2empty
    [⟨false, true, some "pre-existing hint"⟩]
    [⟨true, some "marked out of app by stack rule"⟩]
    ⟨true, none⟩ c2wSt 0
    ⟨false, true, some "pre-existing hint"⟩
    ⟨true, some "marked out of app by stack rule"⟩
    rfl rfl rfl rfl rfl

/-- Claim C4, counterexample.  With a rule set whose first base is the
legacy base id, a stacktrace with zero in-app contributing frames still
takes the engine's stacktrace verdict (`contributes = true`) and keeps
the engine's stacktrace hint, falsifying the claimed unconditional
collapse. -/
theorem c4_counterexample :
    assemble_stacktrace_component e2legacy "app"
        [⟨false, false, none⟩] [⟨false, none⟩] ⟨true, some "stacktrace grouping hint"⟩ =
      .ok ⟨[⟨false, false, none⟩], some "stacktrace grouping hint", true, ⟨0, 0, 0, 1⟩⟩ := by
  unfold assemble_stacktrace_component basesStartWithLegacy e2legacy
  simp only [bind, Except.bind]
  rfl

/-- Claim C4, amended (proved).  In `assemble_stacktrace_component`
with variant "app", provided the rule set's first base is not a legacy
base: when the post-override tally of in-app contributing frames is
zero the returned stacktrace component has `contributes = false` and a
null hint (clearing any engine stacktrace hint); otherwise the
stacktrace `contributes` and hint come from the engine result. -/
theorem c4_zero_in_app_collapse (e : Enhancements)
    (fcs : List FrameGroupingComponent) (rcs : List RustComponent)
    (rres : RustAssembleResult) (st : StacktraceGroupingComponent)
    (hleg : basesStartWithLegacy e.bases = .ok false)
    (hok : assemble_stacktrace_component e "app" fcs rcs rres = .ok st) :
    (st.frame_counts.in_app_contributing = 0 →
      st.contributes = false ∧ st.hint = none) ∧
    (st.frame_counts.in_app_contributing ≠ 0 →
      st.contributes = rres.contributes ∧ st.hint = rres.hint) := by
  unfold assemble_stacktrace_component at hok
  rw [hleg] at hok
  simp only [bind, Except.bind, pure, Except.pure, Except.ok.injEq] at hok
  by_cases hzero :
      (List.foldl FrameCounts.add ⟨0, 0, 0, 0⟩
        ((fcs.zip rcs).map fun p =>
          updatedFrameComponent false "app" p.1 p.2)).in_app_contributing = 0
  · refine ⟨fun _ => ?_, fun hnz => absurd ?_ hnz⟩
    · rw [← hok]
      refine ⟨?_, ?_⟩ <;> simp [hzero]
    · rw [← hok]
      simpa using hzero
  · refine ⟨fun hz => absurd ?_ hzero, fun _ => ?_⟩
    · rw [← hok] at hz
      simpa using hz
    · rw [← hok]
      refine ⟨?_, ?_⟩ <;> simp [hzero]

/-- Witness rule-set outcome for `c4_zero_in_app_collapse`. -/
def c4wSt : StacktraceGroupingComponent :=
  ⟨[⟨false, false, none⟩], none, false, ⟨0, 0, 0, 1⟩⟩

/-- Witness for the amended C4: zero in-app contributing frames forces
the stacktrace to non-contributing with a null hint even though the
engine said `contributes = true` with a hint. -/
theorem c4_witness : c4wSt.contributes = false ∧ c4wSt.hint = none :=
  (c4_zero_in_app_collapse e2empty [⟨false, true, none⟩] [⟨false, none⟩]
    ⟨true, some "group hint"⟩ c4wSt rfl rfl).1 rfl

/-- Claim C8 (confirmed).  In `assemble_stacktrace_component` with
variant "system", every frame component takes its `contributes` value
exactly from the engine verdict, and the engine hint is applied unless
it is absent/empty or begins with "marked in-app" or
"marked out of app", in which case the frame's pre-existing hint is
kept. -/
theorem c8_system_variant (e : Enhancements)
    (fcs : List FrameGroupingComponent) (rcs : List RustComponent)
    (rres : RustAssembleResult) (st : StacktraceGroupingComponent) (i : Nat)
    (py : FrameGroupingComponent) (rust : RustComponent)
    (hok : assemble_stacktrace_component e "system" fcs rcs rres = .ok st)
    (hpy : fcs[i]? = some py) (hrust : rcs[i]? = some rust) :
    st.values[i]? = some { py with
      contributes := rust.contributes,
      hint := if hintTruthy rust.hint ∧
          ¬pyStartsWith (rust.hint.getD "") "marked in-app" ∧
          ¬pyStartsWith (rust.hint.getD "") "marked out of app"
        then rust.hint else py.hint } := by
  unfold assemble_stacktrace_component at hok
  cases hleg : basesStartWithLegacy e.bases with
  | error err => rw [hleg] at hok; exact absurd hok (by simp [bind, Except.bind])
  | ok legacy =>
    rw [hleg] at hok
    simp only [bind, Except.bind, pure, Except.pure, Except.ok.injEq] at hok
    subst hok
    have hzip : (fcs.zip rcs)[i]? = some (py, rust) := by
      rw [List.getElem?_zip_eq_some]; exact ⟨hpy, hrust⟩
    simp only [List.getElem?_map, hzip, Option.map_some']
    unfold updatedFrameComponent
    have hne : ¬(¬legacy = true ∧ "system" = "app" ∧ ¬py.in_app = true) := by
      intro h
      exact absurd h.2.1 (by decide)
    rw [if_neg hne, if_pos (rfl : "system" = "system")]

/-- Witness rule-set outcome for `c8_system_variant`. -/
def c8wSt : StacktraceGroupingComponent :=
  ⟨[⟨true, false, some "ignored by stack rule"⟩], some "grouping hint", true, ⟨0, 1, 0, 0⟩⟩

/-- Witness for C8: the engine verdict `contributes = false` and its
non-marking hint are both applied in the system variant. -/
theorem c8_witness :
    c8wSt.values[0]? = some ⟨true, false, some "ignored by stack rule"⟩ := by
  exact c8_system_variant e2empty
    [⟨true, true, some "old hint"⟩] [⟨false, some "ignored by stack rule"⟩]
    ⟨true, some "grouping hint"⟩ c8wSt 0
    ⟨true, true, some "old hint"⟩ ⟨false, some "ignored by stack rule"⟩
    rfl rfl rfl

end Enhancer
